import Mathlib

/-!
# Verification of the release orchestration script

This file shallowly embeds `src/scripts/release.ts`, a release-automation CLI
script, together with the parts of its external collaborators that decide the
spec's claims:

* the `semver` npm library's `inc`, `valid` and version comparison (the script
  calls `semver.inc(currentVersion, i, 'beta')` and `semver.valid`), modelled
  from the node-semver implementation (`SemVer.inc`, `compareIdentifiers`,
  `SemVer.compare`, and the strict parsing regular expressions);
* `JSON.parse` / `JSON.stringify(pkg, null, 2)` at the level of the parsed
  ordered object (an association list of fields), which is what
  `updateVersion` manipulates;
* the orchestration in `main`, modelled as a function from the command-line
  arguments and an environment (operator prompt answers and the outcomes of
  external process invocations) to a trace of observable effects and an
  `Except` result.  `main().catch(err => console.error(err))` at the end of
  the script handles any rejection, so the Node process exits with status 0
  in every case (no `process.exit` call appears anywhere in the script);
  `topLevel` records this.

Strings are processed over `String.data` (lists of characters) with structural
recursion so that concrete runs reduce inside the kernel.  ANSI color wrappers
(`picocolors`) around console output are abstracted away: the trace records
the plain message text.
-/

set_option autoImplicit false

namespace Release

/-! ## Character/string helpers (JS string primitives used by the script) -/

/-- Digit test for the ASCII digits, as used by the semver grammar. -/
def isDigitC (c : Char) : Bool := c.isDigit

/-- The semver identifier alphabet `[0-9A-Za-z-]`. -/
def isIdChar (c : Char) : Bool := c.isDigit || c.isAlpha || c == '-'

/-- Trim whitespace from both ends of a character list (JS `String.trim`). -/
def trimWs (l : List Char) : List Char :=
  ((l.dropWhile Char.isWhitespace).reverse.dropWhile Char.isWhitespace).reverse

/-- Split a character list at every occurrence of `sep` (JS `split(sep)`). -/
def splitOnChar (sep : Char) : List Char → List (List Char)
  | [] => [[]]
  | c :: cs =>
    let r := splitOnChar sep cs
    if c == sep then [] :: r
    else
      match r with
      | [] => [[c]]
      | h :: t => (c :: h) :: t

/-- Split a character list at the first occurrence of `sep`, if any. -/
def splitFirst (sep : Char) : List Char → List Char × Option (List Char)
  | [] => ([], none)
  | c :: cs =>
    if c == sep then ([], some cs)
    else
      let r := splitFirst sep cs
      (c :: r.1, r.2)

/-- Does `pat` occur at the head of `l`? -/
def listStartsWith : List Char → List Char → Bool
  | _, [] => true
  | [], _ :: _ => false
  | c :: cs, p :: ps => c == p && listStartsWith cs ps

/-- Does `pat` occur anywhere inside `l`?  (JS `String.includes`, also the
effect of matching against a plain-text regular expression such as
`/previously published/`.) -/
def listIncludes (l pat : List Char) : Bool :=
  match l with
  | [] => listStartsWith [] pat
  | _ :: cs => listStartsWith l pat || listIncludes cs pat

/-- JS `String.includes` on strings. -/
def strIncludes (s pat : String) : Bool := listIncludes s.data pat.data

/-- Remove the first occurrence of `pat` from `l`, if any
(JS `String.replace(pat, '')` with a string pattern). -/
def removeFirstOcc (pat : List Char) : List Char → List Char
  | [] => if listStartsWith [] pat then [] else []
  | c :: cs =>
    if listStartsWith (c :: cs) pat then (c :: cs).drop pat.length
    else c :: removeFirstOcc pat cs

/-- Numeric value of a list of ASCII digits. -/
def digitsToNat (l : List Char) : Nat :=
  l.foldl (fun acc c => acc * 10 + (c.toNat - '0'.toNat)) 0

/-- Index of the last `')'` in `l`, if any. -/
def lastIdxOfRParen (l : List Char) : Option Nat :=
  (l.foldl (fun (st : Nat × Option Nat) c =>
      (st.1 + 1, if c == ')' then some st.1 else st.2)) (0, none)).2

/-- Index of the first `'('` strictly before position `j`, if any. -/
def firstLParenBefore (l : List Char) (j : Nat) : Option Nat :=
  (l.foldl (fun (st : Nat × Option Nat) c =>
      (st.1 + 1,
        match st.2 with
        | some i => some i
        | none => if c == '(' && decide (st.1 < j) then some st.1 else none))
    (0, none)).2

/-- The capture of JS `s.match(/\((.*)\))/` at index 1: with a greedy `.*`,
the group runs from just after the first `'('` that precedes the last `')'`
up to that last `')'`.  Returns `none` when the regular expression does not
match (in the script that makes the non-null assertion `!` blow up). -/
def extractParen (s : String) : Option String :=
  let cs := s.data
  match lastIdxOfRParen cs with
  | none => none
  | some j =>
    match firstLParenBefore cs j with
    | none => none
    | some i => some (String.mk ((cs.drop (i + 1)).take (j - i - 1)))

/-- JS `Boolean` rendering used by template-literal interpolation. -/
def jsBool (b : Bool) : String := if b then "true" else "false"

/-! ## The node-semver model

The script calls `semver.inc(currentVersion, i, 'beta')` and
`semver.valid(targetVersion)`.  The following definitions are translated from
the node-semver package: the strict `FULL` parsing regular expression, the
`SemVer` class invariants (`MAX_SAFE_INTEGER` bounds, numeric conversion of
all-digit prerelease identifiers), `compareIdentifiers`, `compareMain` /
`comparePre`, and `SemVer.inc`.  Build metadata is accepted by the parser and
discarded, exactly as `SemVer` ignores it for comparison and `inc`. -/

/-- A prerelease identifier: node-semver stores an all-digit identifier whose
value is below `MAX_SAFE_INTEGER` as a JS number, any other identifier as a
string. -/
inductive PreId where
  | num (n : Nat)
  | str (s : String)
deriving DecidableEq, Repr

/-- Parsed semantic version (build metadata discarded, as node-semver does for
ordering and increments). -/
structure SemVer where
  major : Nat
  minor : Nat
  patch : Nat
  prerelease : List PreId
deriving DecidableEq, Repr

/-- `Number.MAX_SAFE_INTEGER`. -/
def MSI : Nat := 9007199254740991

/-- Strict numeric component: `0|[1-9]\d*`, bounded by `MAX_SAFE_INTEGER`
(the `SemVer` constructor throws above it). -/
def parseNumeric (l : List Char) : Option Nat :=
  match l with
  | [] => none
  | c :: cs =>
    if (c :: cs).all isDigitC then
      if c == '0' && !cs.isEmpty then none
      else
        let n := digitsToNat (c :: cs)
        if n ≤ MSI then some n else none
    else none

/-- One prerelease identifier: `0|[1-9]\d*|\d*[a-zA-Z-][0-9a-zA-Z-]*`;
all-digit identifiers below `MAX_SAFE_INTEGER` become numbers, other
identifiers stay strings. -/
def parsePreId (l : List Char) : Option PreId :=
  match l with
  | [] => none
  | c :: cs =>
    if (c :: cs).all isIdChar then
      if (c :: cs).all isDigitC then
        if c == '0' && !cs.isEmpty then none
        else
          let n := digitsToNat (c :: cs)
          if n < MSI then some (PreId.num n) else some (PreId.str (String.mk (c :: cs)))
      else some (PreId.str (String.mk (c :: cs)))
    else none

/-- Parse a dot-separated prerelease list. -/
def parsePreIds : List (List Char) → Option (List PreId)
  | [] => some []
  | x :: xs =>
    match parsePreId x, parsePreIds xs with
    | some a, some r => some (a :: r)
    | _, _ => none

/-- One build identifier: `[0-9A-Za-z-]+`. -/
def buildIdOk (l : List Char) : Bool := !l.isEmpty && l.all isIdChar

/-- Strict semver parse (node-semver `parse` with default options): length
bound, `trim`, optional leading `v`, `MAJOR.MINOR.PATCH`, optional
`-prerelease`, optional `+build`. -/
def semverParse (s : String) : Option SemVer :=
  if 256 < s.length then none
  else
    let cs := trimWs s.data
    let cs := match cs with
      | 'v' :: rest => rest
      | other => other
    let core := splitFirst '+' cs
    let buildOk := match core.2 with
      | none => true
      | some b => (splitOnChar '.' b).all buildIdOk
    if buildOk then
      let mainPre := splitFirst '-' core.1
      match splitOnChar '.' mainPre.1 with
      | [a, b, c] =>
        match parseNumeric a, parseNumeric b, parseNumeric c with
        | some M, some N, some P =>
          match mainPre.2 with
          | none => some ⟨M, N, P, []⟩
          | some p =>
            match parsePreIds (splitOnChar '.' p) with
            | some ids => some ⟨M, N, P, ids⟩
            | none => none
        | _, _, _ => none
      | _ => none
    else none

/-- `semver.valid` as the script uses it: truthiness of the parse. -/
def svValid (s : String) : Bool := (semverParse s).isSome

/-- Format one prerelease identifier. -/
def formatPreId : PreId → String
  | PreId.num n => toString n
  | PreId.str s => s

/-- `SemVer.format`: the canonical version string. -/
def svFormat (v : SemVer) : String :=
  toString v.major ++ "." ++ toString v.minor ++ "." ++ toString v.patch ++
    (if v.prerelease.isEmpty then ""
     else "-" ++ String.intercalate "." (v.prerelease.map formatPreId))

/-- Numeric comparison written the way node-semver's `compareIdentifiers`
computes it (`a === b ? 0 : a < b ? -1 : 1`). -/
def cmpN (a b : Nat) : Ordering :=
  if a = b then Ordering.eq else if a < b then Ordering.lt else Ordering.gt

/-- Lexicographic comparison of character lists by code point. -/
def cmpCharList : List Char → List Char → Ordering
  | [], [] => Ordering.eq
  | [], _ :: _ => Ordering.lt
  | _ :: _, [] => Ordering.gt
  | a :: as', b :: bs =>
    if a.toNat = b.toNat then cmpCharList as' bs
    else if a.toNat < b.toNat then Ordering.lt else Ordering.gt

/-- JS string comparison (`a === b ? 0 : a < b ? -1 : 1`): lexicographic on
code units, identical to code-point order for the ASCII identifiers semver
admits. -/
def cmpStr (a b : String) : Ordering := cmpCharList a.data b.data

/-- node-semver `compareIdentifiers`: numeric identifiers compare numerically
and sort below alphanumeric ones; alphanumeric identifiers compare as JS
strings. -/
def cmpIdent : PreId → PreId → Ordering
  | PreId.num a, PreId.num b => cmpN a b
  | PreId.num _, PreId.str _ => Ordering.lt
  | PreId.str _, PreId.num _ => Ordering.gt
  | PreId.str a, PreId.str b => cmpStr a b

/-- The element loop of `comparePre`: a shorter list that is a prefix of the
other sorts first. -/
def preLoop : List PreId → List PreId → Ordering
  | [], [] => Ordering.eq
  | [], _ :: _ => Ordering.lt
  | _ :: _, [] => Ordering.gt
  | a :: as', b :: bs =>
    match cmpIdent a b with
    | Ordering.eq => preLoop as' bs
    | o => o

/-- node-semver `comparePre`: a version without prerelease sorts above one
with prerelease; otherwise identifiers are compared pairwise. -/
def comparePreLists (x y : List PreId) : Ordering :=
  match x, y with
  | [], [] => Ordering.eq
  | [], _ :: _ => Ordering.gt
  | _ :: _, [] => Ordering.lt
  | _ :: _, _ :: _ => preLoop x y

/-- node-semver `compare`: `compareMain` then `comparePre`. -/
def svCompare (v w : SemVer) : Ordering :=
  match cmpN v.major w.major with
  | Ordering.eq =>
    match cmpN v.minor w.minor with
    | Ordering.eq =>
      match cmpN v.patch w.patch with
      | Ordering.eq => comparePreLists v.prerelease w.prerelease
      | o => o
    | o => o
  | o => o

/-- `semver.gt`. -/
def svGt (v w : SemVer) : Bool := svCompare v w == Ordering.gt

/-- Increment the last numeric element of a prerelease list (the backwards
loop in `SemVer.inc`'s `pre` case); `none` when no element is numeric. -/
def bumpLast : List PreId → Option (List PreId)
  | [] => none
  | x :: xs =>
    match bumpLast xs with
    | some xs' => some (x :: xs')
    | none =>
      match x with
      | PreId.num n => some (PreId.num (n + 1) :: xs)
      | PreId.str _ => none

/-- Recognizer for JS strings whose `Number(...)` coercion is not `NaN`
(after trimming): the empty string, decimal literals with optional exponent,
signed `Infinity`, and radix literals.  Used to model the
`isNaN(this.prerelease[1])` test inside `SemVer.inc`. -/
def spanDigits (l : List Char) : List Char × List Char :=
  (l.takeWhile isDigitC, l.dropWhile isDigitC)

/-- Exponent part `([eE][+-]?\d+)?` at the end of a decimal literal. -/
def expOk : List Char → Bool
  | [] => true
  | 'e' :: r =>
    (match r with
     | '+' :: d => !d.isEmpty && d.all isDigitC
     | '-' :: d => !d.isEmpty && d.all isDigitC
     | d => !d.isEmpty && d.all isDigitC)
  | 'E' :: r =>
    (match r with
     | '+' :: d => !d.isEmpty && d.all isDigitC
     | '-' :: d => !d.isEmpty && d.all isDigitC
     | d => !d.isEmpty && d.all isDigitC)
  | _ => false

/-- Unsigned decimal literal `\d+(\.\d*)?([eE][+-]?\d+)?|\.\d+([eE][+-]?\d+)?`
or `Infinity`. -/
def decimalLit (l : List Char) : Bool :=
  if l == "Infinity".data then true
  else
    let s := spanDigits l
    if s.1.isEmpty then
      match s.2 with
      | '.' :: r2 =>
        let f := spanDigits r2
        !f.1.isEmpty && expOk f.2
      | _ => false
    else
      match s.2 with
      | [] => true
      | '.' :: r2 =>
        let f := spanDigits r2
        expOk f.2
      | r1 => expOk r1

/-- Hexadecimal digit. -/
def isHexDigitC (c : Char) : Bool :=
  c.isDigit || ('a' ≤ c && c ≤ 'f') || ('A' ≤ c && c ≤ 'F')

/-- `Number(s)` is not `NaN`. -/
def jsNumericStr (s : String) : Bool :=
  let l := trimWs s.data
  match l with
  | [] => true
  | '+' :: r => decimalLit r
  | '-' :: r => decimalLit r
  | '0' :: 'x' :: r => !r.isEmpty && r.all isHexDigitC
  | '0' :: 'X' :: r => !r.isEmpty && r.all isHexDigitC
  | '0' :: 'o' :: r => !r.isEmpty && r.all (fun c => '0' ≤ c && c ≤ '7')
  | '0' :: 'O' :: r => !r.isEmpty && r.all (fun c => '0' ≤ c && c ≤ '7')
  | '0' :: 'b' :: r => !r.isEmpty && r.all (fun c => c == '0' || c == '1')
  | '0' :: 'B' :: r => !r.isEmpty && r.all (fun c => c == '0' || c == '1')
  | other => decimalLit other

/-- `isNaN(this.prerelease[1])` in `SemVer.inc`: `undefined` is `NaN`, a
number is not, a string goes through `Number` coercion. -/
def jsIsNaNAt1 (pre : List PreId) : Bool :=
  match pre.drop 1 with
  | [] => true
  | PreId.num _ :: _ => false
  | PreId.str s :: _ => !jsNumericStr s

/-- `SemVer.inc`'s `pre` case with `identifier = 'beta'` and the default
`identifierBase` (so `base = 0`): bump the last numeric identifier or append
`0`; then, since an identifier was supplied, replace the prerelease with
`['beta', 0]` unless it already starts with `beta` followed by a number. -/
def incPreBeta (pre : List PreId) : List PreId :=
  let pre1 :=
    if pre.isEmpty then [PreId.num 0]
    else
      match bumpLast pre with
      | some l => l
      | none => pre ++ [PreId.num 0]
  if cmpIdent (pre1.headD (PreId.num 0)) (PreId.str "beta") == Ordering.eq then
    if jsIsNaNAt1 pre1 then [PreId.str "beta", PreId.num 0] else pre1
  else [PreId.str "beta", PreId.num 0]

/-- The seven increment kinds the script offers (`versionIncrements`). -/
inductive ReleaseType where
  | patch | minor | major | prepatch | preminor | premajor | prerelease
deriving DecidableEq, Repr

/-- Display name of an increment kind, as listed in the select prompt. -/
def relName : ReleaseType → String
  | ReleaseType.patch => "patch"
  | ReleaseType.minor => "minor"
  | ReleaseType.major => "major"
  | ReleaseType.prepatch => "prepatch"
  | ReleaseType.preminor => "preminor"
  | ReleaseType.premajor => "premajor"
  | ReleaseType.prerelease => "prerelease"

/-- `SemVer.inc(release, 'beta')`, translated case by case from node-semver.
Note that the identifier only enters through the `pre` case: `patch`,
`minor` and `major` never attach a prerelease. -/
def svInc (v : SemVer) : ReleaseType → SemVer
  | ReleaseType.major =>
    ⟨(if v.minor != 0 || v.patch != 0 || v.prerelease.isEmpty then v.major + 1 else v.major),
      0, 0, []⟩
  | ReleaseType.minor =>
    ⟨v.major, (if v.patch != 0 || v.prerelease.isEmpty then v.minor + 1 else v.minor), 0, []⟩
  | ReleaseType.patch =>
    ⟨v.major, v.minor, (if v.prerelease.isEmpty then v.patch + 1 else v.patch), []⟩
  | ReleaseType.premajor => ⟨v.major + 1, 0, 0, incPreBeta []⟩
  | ReleaseType.preminor => ⟨v.major, v.minor + 1, 0, incPreBeta []⟩
  | ReleaseType.prepatch => ⟨v.major, v.minor, v.patch + 1, incPreBeta []⟩
  | ReleaseType.prerelease =>
    if v.prerelease.isEmpty then ⟨v.major, v.minor, v.patch + 1, incPreBeta []⟩
    else ⟨v.major, v.minor, v.patch, incPreBeta v.prerelease⟩

/-- The script's `inc` helper: `semver.inc(currentVersion, i, 'beta')!` as a
string.  `semver.inc` returns `null` for an unparsable current version; the
TypeScript non-null assertion does not change the runtime value, and the
`null` is later interpolated into the choice label as the text `"null"`. -/
def incStr (curStr : String) (k : ReleaseType) : String :=
  match semverParse curStr with
  | some v => svFormat (svInc v k)
  | none => "null"

/-- Structural well-formedness mirroring exactly what the strict parser can
produce: bounded numeric components, and prerelease identifiers that are
either bounded numbers or strings over the identifier alphabet that are
nonempty and, when all digits, have no leading zero and denote a value at or
above `MAX_SAFE_INTEGER`. -/
def preIdWfB : PreId → Bool
  | PreId.num n => decide (n < MSI)
  | PreId.str s =>
    !s.data.isEmpty && s.data.all isIdChar &&
      (if s.data.all isDigitC then
        decide (MSI ≤ digitsToNat s.data) &&
          (match s.data with
           | '0' :: _ :: _ => false
           | _ => true)
      else true)

/-- A structurally valid version: the image of the strict parser. -/
def svWfB (v : SemVer) : Bool :=
  decide (v.major ≤ MSI) && decide (v.minor ≤ MSI) && decide (v.patch ≤ MSI) &&
    v.prerelease.all preIdWfB

/-! ## The manifest model (`updateVersion`)

`updateVersion` reads `package.json`, runs `JSON.parse`, assigns
`pkg.version = version`, and writes `JSON.stringify(pkg, null, 2)` plus a
newline.  The manifest is modelled as the parsed ordered object: an
association list of fields in property-enumeration order (JS objects
enumerate string keys in insertion order, which `JSON.parse` takes from the
file and `JSON.stringify` preserves).  JSON numbers are modelled as integers;
their re-serialization is not inspected by any claim. -/

/-- A parsed JSON value. -/
inductive JVal where
  | jstr (s : String)
  | jnum (n : Int)
  | jbool (b : Bool)
  | jnull
  | jarr (xs : List JVal)
  | jobj (fs : List (String × JVal))

/-- The field names of a parsed object, in order. -/
def keysOf : List (String × JVal) → List String
  | [] => []
  | (k, _) :: rest => k :: keysOf rest

/-- First value bound to a key. -/
def lookupKey : List (String × JVal) → String → Option JVal
  | [], _ => none
  | (k', v') :: rest, k => if k' = k then some v' else lookupKey rest k

/-- JS property assignment `obj[k] = v` on the parsed object: an existing key
keeps its position and gets the new value; a missing key is appended. -/
def setKey : List (String × JVal) → String → JVal → List (String × JVal)
  | [], k, v => [(k, v)]
  | (k', v') :: rest, k, v =>
    if k' = k then (k, v) :: rest else (k', v') :: setKey rest k v

/-- Four-digit hexadecimal rendering for `\uXXXX` escapes. -/
def hexDigit (n : Nat) : Char :=
  if n < 10 then Char.ofNat ('0'.toNat + n) else Char.ofNat ('a'.toNat + (n - 10))

/-- `JSON.stringify` escaping of one character. -/
def jsonEscapeChar (c : Char) : List Char :=
  if c == '"' then ['\\', '"']
  else if c == '\\' then ['\\', '\\']
  else if c == '\n' then ['\\', 'n']
  else if c == '\t' then ['\\', 't']
  else if c == '\r' then ['\\', 'r']
  else if c == Char.ofNat 8 then ['\\', 'b']
  else if c == Char.ofNat 12 then ['\\', 'f']
  else if c.toNat < 32 then
    ['\\', 'u', '0', '0', hexDigit (c.toNat / 16), hexDigit (c.toNat % 16)]
  else [c]

/-- `JSON.stringify` rendering of a string literal. -/
def jsonQuote (s : String) : String :=
  "\"" ++ String.mk (s.data.flatMap jsonEscapeChar) ++ "\""

/-- `n` spaces. -/
def indentSp (n : Nat) : String := String.mk (List.replicate n ' ')

mutual

/-- `JSON.stringify(v, null, 2)` at nesting depth `ind` (in numbers of
two-space levels). -/
def renderJ (ind : Nat) : JVal → String
  | JVal.jstr s => jsonQuote s
  | JVal.jnum n => toString n
  | JVal.jbool b => jsBool b
  | JVal.jnull => "null"
  | JVal.jarr [] => "[]"
  | JVal.jarr (x :: xs) =>
    "[\n" ++ indentSp (2 * (ind + 1)) ++ renderJ (ind + 1) x ++
      renderArr (ind + 1) xs ++ "\n" ++ indentSp (2 * ind) ++ "]"
  | JVal.jobj [] => "\x7b\x7d"
  | JVal.jobj ((k, v) :: fs) =>
    "\x7b\n" ++ indentSp (2 * (ind + 1)) ++ jsonQuote k ++ ": " ++ renderJ (ind + 1) v ++
      renderObj (ind + 1) fs ++ "\n" ++ indentSp (2 * ind) ++ "\x7d"

/-- Remaining array elements, each on its own line. -/
def renderArr (ind : Nat) : List JVal → String
  | [] => ""
  | x :: xs => ",\n" ++ indentSp (2 * ind) ++ renderJ ind x ++ renderArr ind xs

/-- Remaining object fields, each on its own line. -/
def renderObj (ind : Nat) : List (String × JVal) → String
  | [] => ""
  | (k, v) :: fs =>
    ",\n" ++ indentSp (2 * ind) ++ jsonQuote k ++ ": " ++ renderJ ind v ++ renderObj ind fs

end

/-- `JSON.stringify(·, null, 2)` of the whole manifest object. -/
def jsonStringify2 (m : List (String × JVal)) : String := renderJ 0 (JVal.jobj m)

/-- `updateVersion`'s effect on the parsed manifest. -/
def updateVersion (m : List (String × JVal)) (version : String) :
    List (String × JVal) :=
  setKey m "version" (JVal.jstr version)

/-- The exact bytes `updateVersion` writes back:
``writeFileSync(pkgPath, `${JSON.stringify(pkg, null, 2)}\n`)``. -/
def updateVersionFile (m : List (String × JVal)) (version : String) : String :=
  jsonStringify2 (updateVersion m version) ++ "\n"

/-- Does the string end in a newline? -/
def endsWithNl (s : String) : Bool := s.data.getLast? == some '\n'

/-! ## The orchestration model (`main` and the module top level)

The script's observable behaviour is a trace of effects plus an `Except`
result.  Prompt answers and external-process outcomes are supplied by an
`Env`; the command-line arguments (after `minimist`) by `ScriptArgs`. -/

/-- Parsed command-line arguments: the positional target version (`args._`),
`--dry`, `--skipBuild` and `--tag`. -/
structure ScriptArgs where
  positional : List String
  dry : Bool
  skipBuild : Bool
  tag : Option String

/-- The error object `execa` rejects with; its `stderr` property is a string
when the process ran with piped stdio, and absent (`undefined`) otherwise. -/
structure ProcErr where
  stderr : Option String
deriving DecidableEq, Repr

/-- Errors a run of `main` can reject with. -/
inductive JsError where
  /-- `throw new Error('invalid target version: ...')`. -/
  | invalidVersion (v : String)
  /-- A rejected external process invocation, propagated. -/
  | thrownProc (e : ProcErr)
  /-- A runtime `TypeError` (reading a property of `undefined`/`null`). -/
  | typeError (msg : String)
deriving DecidableEq, Repr

/-- Observable effects of a run. -/
inductive Effect where
  /-- A real external process invocation by `execa` (`run`). -/
  | run (bin : String) (args : List String)
  /-- A `[dryrun]` log from `dryRun` in place of an invocation. -/
  | dry (bin : String) (args : List String)
  /-- `updateVersion` rewriting `package.json` with the new version. -/
  | fileWrite (version : String)
  /-- A console message (colors stripped). -/
  | out (msg : String)
  /-- An interactive prompt shown to the operator. -/
  | asked (msg : String)
deriving DecidableEq, Repr

/-- What the operator picks in the release-type select. -/
inductive SelectChoice where
  | kind (k : ReleaseType)
  | custom
deriving DecidableEq, Repr

/-- The environment of a run: operator answers and external-process
outcomes.  `procErr bin args = none` means the invocation succeeds;
`procOut` is the captured stdout of a piped invocation. -/
structure Env where
  select : SelectChoice
  customVersion : String
  tagBeta : Bool
  confirmYes : Bool
  procErr : String → List String → Option ProcErr
  procOut : String → List String → String

/-- A computation producing a trace of effects and a result. -/
def MRes (α : Type) : Type := List Effect × Except JsError α

/-- Return. -/
def mret {α : Type} (a : α) : MRes α := ([], Except.ok a)

/-- Sequencing: effects accumulate; an error stops the run. -/
def mbind {α β : Type} (x : MRes α) (f : α → MRes β) : MRes β :=
  match x with
  | (tr, Except.ok a) => ((tr ++ (f a).1 : List Effect), (f a).2)
  | (tr, Except.error e) => (tr, Except.error e)

/-- Emit one effect. -/
def emit (e : Effect) : MRes Unit := ([e], Except.ok ())

/-- Throw. -/
def mthrow {α : Type} (e : JsError) : MRes α := ([], Except.error e)

/-- A real invocation via `run` (`execa`): the process is started, then the
run continues or rejects according to the environment. -/
def runReal (env : Env) (bin : String) (args : List String) : MRes Unit :=
  ([Effect.run bin args],
    match env.procErr bin args with
    | some e => Except.error (JsError.thrownProc e)
    | none => Except.ok ())

/-- A piped invocation whose stdout the script reads (`git diff`). -/
def runPiped (env : Env) (bin : String) (args : List String) : MRes String :=
  ([Effect.run bin args],
    match env.procErr bin args with
    | some e => Except.error (JsError.thrownProc e)
    | none => Except.ok (env.procOut bin args))

/-- `runIfNotDry`: the real runner, or the logging stub that never fails. -/
def runIfNotDry (dry : Bool) (env : Env) (bin : String) (args : List String) :
    MRes Unit :=
  if dry then ([Effect.dry bin args], Except.ok ()) else runReal env bin args

/-- `pkgName`: strip a leading `@tencent/` scope (regex `/^@tencent\//`),
then delete the first occurrence of `tds-vue-plugin-`
(`String.replace` with a string pattern). -/
def computePkgName (rawName : String) : String :=
  let l := rawName.data
  let l := if listStartsWith l "@tencent/".data then l.drop 9 else l
  String.mk (removeFirstOcc "tds-vue-plugin-".data l)

/-- JS truthiness of `args.tag` (`undefined` and `''` are falsy). -/
def optTruthy : Option String → Bool
  | none => false
  | some s => !(s == "")

/-- The label of one select choice: `` `${i} (${inc(i)})` ``. -/
def choiceLabel (curStr : String) (k : ReleaseType) : String :=
  relName k ++ " (" ++ incStr curStr k ++ ")"

/-- The argument list `publishPackage` passes to `yarn`. -/
def publishArgsFor (tagArg : Option String) (version : String) : List String :=
  ["publish", "--no-git-tag-version", "--new-version", version, "--access", "public"] ++
    (match tagArg with
     | some t => if t == "" then [] else ["--tag", t]
     | none => [])

/-- The `stderr` property read off a caught error value (`e.stderr`):
present only on process-rejection errors that captured stderr. -/
def errStderr : JsError → Option String
  | JsError.thrownProc e => e.stderr
  | _ => none

/-- `publishPackage`: invoke `yarn publish ...` through the supplied runner;
on rejection, read `e.stderr` and either log-and-swallow a
`previously published` failure or rethrow.  When `e.stderr` is `undefined`,
evaluating `e.stderr.match(...)` itself throws a `TypeError`. -/
def publishPackage (pkgName : String) (dry : Bool) (tagArg : Option String)
    (env : Env) (version : String) : MRes Unit :=
  let publicArgs := publishArgsFor tagArg version
  match runIfNotDry dry env "yarn" publicArgs with
  | (tr, Except.ok _) =>
    ((tr ++ [Effect.out ("Successfully published " ++ pkgName ++ "@" ++ version)] :
        List Effect), Except.ok ())
  | (tr, Except.error err) =>
    match errStderr err with
    | some s =>
      if strIncludes s "previously published" then
        ((tr ++ [Effect.out ("Skipping already published: " ++ pkgName)] : List Effect),
          Except.ok ())
      else (tr, Except.error err)
    | none =>
      (tr, Except.error (JsError.typeError "Cannot read properties of undefined (reading match)"))

/-- The interactive part of phase 1: the release-type select, then either
the custom-version text prompt or recovery of the version from the chosen
label via `release.match(/\((.*)\)/)![1]` (the non-null assertion turns a
missed match into a runtime `TypeError`). -/
def resolveInteractive (curStr : String) (env : Env) : MRes String :=
  mbind (emit (Effect.asked "Select release type")) (fun _ =>
    match env.select with
    | SelectChoice.custom =>
      mbind (emit (Effect.asked "Input custom version")) (fun _ =>
        mret env.customVersion)
    | SelectChoice.kind k =>
      match extractParen (choiceLabel curStr k) with
      | some s => mret s
      | none => mthrow (JsError.typeError "Cannot read properties of null (reading 1)"))

/-- Phase 1: resolve the target version from the first positional argument
(JS truthiness: the empty string falls through to the prompts) or
interactively. -/
def resolveTarget (curStr : String) (a : ScriptArgs) (env : Env) : MRes String :=
  match a.positional.head? with
  | some v => if v == "" then resolveInteractive curStr env else mret v
  | none => resolveInteractive curStr env

/-- Phase 2: the beta dist-tag question, asked when the target version
contains `beta` and no `--tag` was given; returns the effective `args.tag`. -/
def betaPhase (targetVersion : String) (a : ScriptArgs) (env : Env) :
    MRes (Option String) :=
  if strIncludes targetVersion "beta" && !optTruthy a.tag then
    ([Effect.asked "Publish under dist-tag \"beta\"?"],
      Except.ok (if env.tagBeta then some "beta" else a.tag))
  else mret a.tag

/-- Phase 5: `pnpm run build`, gated by both `--skipBuild` and `--dry`. -/
def buildPhase (dry skipB : Bool) (env : Env) : MRes Unit :=
  if !skipB && !dry then runReal env "pnpm" ["run", "build"]
  else emit (Effect.out "(skipped)")

/-- Phase 7: commit, tag (named by the interpolation of the script's `tag`
value) when `git diff` printed anything; otherwise a notice. -/
def commitPhase (dry : Bool) (tagS : String) (stdout : String) (env : Env) :
    MRes Unit :=
  if stdout == "" then emit (Effect.out "No changes to commit.")
  else
    mbind (emit (Effect.out "\nCommitting changes...")) (fun _ =>
      mbind (runIfNotDry dry env "git" ["add", "-A"]) (fun _ =>
        mbind (runIfNotDry dry env "git" ["commit", "-m", ("release: " ++ tagS)]) (fun _ =>
          runIfNotDry dry env "git" ["tag", tagS])))

/-- Phases 4-9: everything after the operator confirms. -/
def afterConfirm (pkgName tagS : String) (dry skipB : Bool)
    (tagArg : Option String) (targetVersion : String) (env : Env) : MRes Unit :=
  mbind (emit (Effect.out "\nUpdating package version...")) (fun _ =>
    mbind (emit (Effect.fileWrite targetVersion)) (fun _ =>
      mbind (emit (Effect.out "\nBuilding package...")) (fun _ =>
        mbind (buildPhase dry skipB env) (fun _ =>
          mbind (emit (Effect.out "\nGenerating changelog...")) (fun _ =>
            mbind (runReal env "pnpm" ["run", "changelog"]) (fun _ =>
              mbind (runPiped env "git" ["diff"]) (fun stdout =>
                mbind (commitPhase dry tagS stdout env) (fun _ =>
                  mbind (emit (Effect.out "\nPublishing package...")) (fun _ =>
                    mbind (publishPackage pkgName dry tagArg env targetVersion) (fun _ =>
                      mbind (emit (Effect.out "\nPushing to GitHub...")) (fun _ =>
                        mbind (runIfNotDry dry env "git"
                            ["push", "origin", ("refs/tags/" ++ tagS)]) (fun _ =>
                          mbind (runIfNotDry dry env "git" ["push"]) (fun _ =>
                            mbind (if dry then
                                emit (Effect.out
                                  "\nDry run finished - run git diff to see package changes.")
                              else mret ()) (fun _ =>
                              emit (Effect.out "")))))))))))))))

/-- The whole of `main`: resolve the version, validate it, compute the
script's `tag` value (the boolean `pkgName === ` ``` `${pkgName}@${targetVersion}` ```),
ask the beta question, confirm, then run the release phases. -/
def mainModel (rawName curStr : String) (a : ScriptArgs) (env : Env) : MRes Unit :=
  let pkgName := computePkgName rawName
  mbind (resolveTarget curStr a env) (fun targetVersion =>
    if svValid targetVersion then
      let tagS := jsBool (pkgName == pkgName ++ "@" ++ targetVersion)
      mbind (betaPhase targetVersion a env) (fun tagArg =>
        mbind (emit (Effect.asked ("Releasing " ++ tagS ++ ". Confirm?"))) (fun _ =>
          if env.confirmYes then
            afterConfirm pkgName tagS a.dry a.skipBuild tagArg targetVersion env
          else mret ()))
    else mthrow (JsError.invalidVersion targetVersion))

/-- Console rendering of a rejection reason (`console.error(err)`). -/
def errText : JsError → String
  | JsError.invalidVersion v => "Error: invalid target version: " ++ v
  | JsError.thrownProc _ => "Error: Command failed"
  | JsError.typeError m => "TypeError: " ++ m

/-- The module top level: `main().catch((err) => { console.error(err) })`.
The catch handler prints the error and handles the rejection; the script
never calls `process.exit`, so the Node process exits with status 0 whether
`main` resolved or rejected. -/
def topLevel (rawName curStr : String) (a : ScriptArgs) (env : Env) :
    List Effect × Nat :=
  match mainModel rawName curStr a env with
  | (tr, Except.ok _) => (tr, 0)
  | (tr, Except.error e) => ((tr ++ [Effect.out (errText e)] : List Effect), 0)

/-- Effects that neither touch a file nor (even as a dry-run stand-in)
correspond to an external command: prompts and console text. -/
def effQuiet : Effect → Bool
  | Effect.asked _ => true
  | Effect.out _ => true
  | _ => false

/-- Is the effect an interactive prompt? -/
def isAskedEff : Effect → Bool
  | Effect.asked _ => true
  | _ => false

/-- An environment in which every external process succeeds. -/
def okProc : String → List String → Option ProcErr := fun _ _ => none

/-- A base environment for concrete runs: the operator picks `patch`,
confirms, and every external process succeeds with empty output. -/
def envBase : Env where
  select := SelectChoice.kind ReleaseType.patch
  customVersion := ""
  tagBeta := false
  confirmYes := true
  procErr := okProc
  procOut := fun _ _ => ""

/-- A sample parsed manifest with extra fields around `name`/`version`. -/
def sampleManifest : List (String × JVal) :=
  [("name", JVal.jstr "what-vite-do"),
   ("version", JVal.jstr "1.0.0"),
   ("scripts", JVal.jobj [("build", JVal.jstr "vite build")]),
   ("private", JVal.jbool false)]

/-! ## Helper lemmas -/

theorem mbind_ok {α β : Type} (tr : List Effect) (a : α) (f : α → MRes β) :
    mbind (tr, Except.ok a) f = ((tr ++ (f a).1 : List Effect), (f a).2) := rfl

theorem mbind_err {α β : Type} (tr : List Effect) (e : JsError) (f : α → MRes β) :
    mbind ((tr, Except.error e) : MRes α) f = (tr, Except.error e) := rfl

theorem mbind_emit {β : Type} (e : Effect) (f : Unit → MRes β) :
    mbind (emit e) f = ((e :: (f ()).1 : List Effect), (f ()).2) := rfl

theorem mbind_mret {α β : Type} (a : α) (f : α → MRes β) :
    mbind (mret a) f = f a := rfl

/-- The script's `tag` value is the boolean
`pkgName === ` ``` `${pkgName}@${targetVersion}` ``` `, and a string never
equals itself extended by `"@"` and more text, so it is `false` for every
package name and target version. -/
theorem tag_always_false (p t : String) : (p == p ++ "@" ++ t) = false := by
  apply beq_eq_false_iff_ne.mpr
  intro h
  have hlen := congrArg String.length h
  simp only [String.length_append] at hlen
  have : String.length "@" = 1 := rfl
  omega

theorem cmpN_self (a : Nat) : cmpN a a = Ordering.eq := by
  unfold cmpN
  rw [if_pos rfl]

theorem cmpN_gt_of_lt {a b : Nat} (h : b < a) : cmpN a b = Ordering.gt := by
  unfold cmpN
  rw [if_neg (by omega), if_neg (by omega)]

theorem incPreBeta_nil : incPreBeta [] = [PreId.str "beta", PreId.num 0] := by decide

theorem preIdWfB_beta : preIdWfB (PreId.str "beta") = true := by decide

theorem preIdWfB_zero : preIdWfB (PreId.num 0) = true := by decide

/-- The interactive resolution only talks to the operator: every effect it
can emit is a prompt. -/
theorem resolveInteractive_askedOnly (curStr : String) (env : Env) :
    (resolveInteractive curStr env).1.all isAskedEff = true := by
  unfold resolveInteractive
  cases hs : env.select with
  | custom => simp [hs, mbind, emit, mret, isAskedEff]
  | kind k =>
    cases hx : extractParen (choiceLabel curStr k) with
    | none => simp [hs, hx, mbind, emit, mthrow, isAskedEff]
    | some s => simp [hs, hx, mbind, emit, mret, isAskedEff]

/-- Phase 1 only talks to the operator: every effect it can emit is a
prompt. -/
theorem resolveTarget_askedOnly (curStr : String) (a : ScriptArgs) (env : Env) :
    (resolveTarget curStr a env).1.all isAskedEff = true := by
  unfold resolveTarget
  cases a.positional.head? with
  | none => exact resolveInteractive_askedOnly curStr env
  | some v =>
    dsimp only
    by_cases hv : (v == "") = true
    · rw [if_pos hv]
      exact resolveInteractive_askedOnly curStr env
    · rw [if_neg hv]
      rfl

/-- `setKey` on a present key preserves the key sequence. -/
theorem setKey_keys (m : List (String × JVal)) (k : String) (v : JVal)
    (h : k ∈ keysOf m) : keysOf (setKey m k v) = keysOf m := by
  induction m with
  | nil => cases h
  | cons p rest ih =>
    rcases p with ⟨k0, v0⟩
    by_cases hk : k0 = k
    · simp [setKey, keysOf, if_pos hk, hk]
    · simp only [keysOf, List.mem_cons] at h
      have h' : k ∈ keysOf rest := by
        rcases h with h1 | h1
        · exact absurd h1.symm hk
        · exact h1
      simp [setKey, keysOf, if_neg hk, ih h']

/-- `setKey` leaves every other key's binding unchanged. -/
theorem setKey_lookup_ne (m : List (String × JVal)) (k k' : String) (v : JVal)
    (h : k' ≠ k) : lookupKey (setKey m k v) k' = lookupKey m k' := by
  induction m with
  | nil =>
    simp only [setKey, lookupKey]
    rw [if_neg (fun he => h he.symm)]
  | cons p rest ih =>
    rcases p with ⟨k0, v0⟩
    by_cases hk : k0 = k
    · subst hk
      simp only [setKey, if_pos rfl, lookupKey]
      rw [if_neg (fun he => h he.symm), if_neg (fun he => h he.symm)]
    · simp only [setKey, if_neg hk, lookupKey]
      by_cases hq : k0 = k'
      · rw [if_pos hq, if_pos hq]
      · rw [if_neg hq, if_neg hq, ih]

/-- `setKey` binds the key to the new value. -/
theorem setKey_lookup_self (m : List (String × JVal)) (k : String) (v : JVal) :
    lookupKey (setKey m k v) k = some v := by
  induction m with
  | nil => simp [setKey, lookupKey]
  | cons p rest ih =>
    rcases p with ⟨k0, v0⟩
    by_cases hk : k0 = k
    · simp [setKey, if_pos hk, lookupKey]
    · simp [setKey, if_neg hk, lookupKey, ih]

/-- Appending a newline puts a newline at the end. -/
theorem endsWithNl_append (x : String) : endsWithNl (x ++ "\n") = true := by
  unfold endsWithNl
  have hd : (x ++ "\n").data = x.data ++ ['\n'] := String.data_append x "\n"
  rw [hd, List.getLast?_concat]
  rfl

theorem jsBool_false : jsBool false = "false" := rfl

/-- Without `beta` in the target version the dist-tag question is skipped and
`args.tag` is passed through. -/
theorem betaPhase_nobeta (tv : String) (a : ScriptArgs) (env : Env)
    (h : strIncludes tv "beta" = false) :
    betaPhase tv a env = ([], Except.ok a.tag) := by
  unfold betaPhase
  simp [h, mret]

/-- Phase 2 always succeeds with some effective tag. -/
theorem betaPhase_ok (tv : String) (a : ScriptArgs) (env : Env) :
    ∃ targ, betaPhase tv a env = ((betaPhase tv a env).1, Except.ok targ) := by
  unfold betaPhase
  split
  · exact ⟨_, rfl⟩
  · exact ⟨a.tag, rfl⟩

/-- Phase 2 only talks to the operator. -/
theorem betaPhase_askedOnly (tv : String) (a : ScriptArgs) (env : Env) :
    (betaPhase tv a env).1.all isAskedEff = true := by
  unfold betaPhase
  split
  · simp [isAskedEff]
  · simp [mret]

/-- Evaluation of `main` up to a confirmed release: the script's `tag` value
is the boolean `false`, so the confirmation names `false` and the release
phases run with the tag string `"false"`. -/
theorem mainModel_confirmed (rawName curStr : String) (a : ScriptArgs) (env : Env)
    (tr0 trb : List Effect) (tv : String) (targ : Option String)
    (hres : resolveTarget curStr a env = (tr0, Except.ok tv))
    (hval : svValid tv = true)
    (hbp : betaPhase tv a env = (trb, Except.ok targ))
    (hyes : env.confirmYes = true) :
    mainModel rawName curStr a env =
      ((tr0 ++ (trb ++ (Effect.asked "Releasing false. Confirm?" ::
        (afterConfirm (computePkgName rawName) "false" a.dry a.skipBuild targ tv env).1)) :
          List Effect),
        (afterConfirm (computePkgName rawName) "false" a.dry a.skipBuild targ tv env).2) := by
  have htag := tag_always_false (computePkgName rawName) tv
  unfold mainModel
  rw [hres, mbind_ok]
  dsimp only
  rw [hbp]
  simp [hval, htag, jsBool_false, hyes, mbind_ok, mbind_emit, jsBool]

/-- Evaluation of `main` when the operator declines the confirmation. -/
theorem mainModel_declined (rawName curStr : String) (a : ScriptArgs) (env : Env)
    (tr0 trb : List Effect) (tv : String) (targ : Option String)
    (hres : resolveTarget curStr a env = (tr0, Except.ok tv))
    (hval : svValid tv = true)
    (hbp : betaPhase tv a env = (trb, Except.ok targ))
    (hno : env.confirmYes = false) :
    mainModel rawName curStr a env =
      ((tr0 ++ (trb ++ [Effect.asked "Releasing false. Confirm?"]) : List Effect),
        Except.ok ()) := by
  have htag := tag_always_false (computePkgName rawName) tv
  unfold mainModel
  rw [hres, mbind_ok]
  dsimp only
  rw [hbp]
  simp [hval, htag, jsBool_false, hno, mbind_ok, mbind_emit, jsBool, mret]

/-- The confirmed phases begin with the version-update step and the manifest
write, before anything that could fail. -/
theorem afterConfirm_starts (pkgName tagS : String) (dry skipB : Bool)
    (targ : Option String) (tv : String) (env : Env) :
    ∃ rest, (afterConfirm pkgName tagS dry skipB targ tv env).1 =
      Effect.out "\nUpdating package version..." :: Effect.fileWrite tv :: rest :=
  ⟨_, rfl⟩

/-- Full evaluation of the confirmed phases in dry-run mode (with changelog
and diff succeeding): build is skipped, changelog and diff run for real, and
commit/tag/publish/push all appear as `[dryrun]` logs carrying the command
name and full argument list. -/
theorem afterConfirm_dry (pkgName tagS : String) (skipB : Bool)
    (targ : Option String) (tv : String) (env : Env)
    (hcl : env.procErr "pnpm" ["run", "changelog"] = none)
    (hdiff : env.procErr "git" ["diff"] = none) :
    afterConfirm pkgName tagS true skipB targ tv env =
      (([Effect.out "\nUpdating package version...", Effect.fileWrite tv,
        Effect.out "\nBuilding package...", Effect.out "(skipped)",
        Effect.out "\nGenerating changelog...", Effect.run "pnpm" ["run", "changelog"],
        Effect.run "git" ["diff"]] ++
        ((if env.procOut "git" ["diff"] == "" then [Effect.out "No changes to commit."]
          else [Effect.out "\nCommitting changes...", Effect.dry "git" ["add", "-A"],
            Effect.dry "git" ["commit", "-m", ("release: " ++ tagS)],
            Effect.dry "git" ["tag", tagS]]) ++
        [Effect.out "\nPublishing package...",
         Effect.dry "yarn" (publishArgsFor targ tv),
         Effect.out ("Successfully published " ++ pkgName ++ "@" ++ tv),
         Effect.out "\nPushing to GitHub...",
         Effect.dry "git" ["push", "origin", ("refs/tags/" ++ tagS)],
         Effect.dry "git" ["push"],
         Effect.out "\nDry run finished - run git diff to see package changes.",
         Effect.out ""]) : List Effect), Except.ok ()) := by
  unfold afterConfirm buildPhase commitPhase publishPackage runIfNotDry runReal runPiped
  cases hso : env.procOut "git" ["diff"] == "" with
  | true => simp [mbind, emit, mret, hcl, hdiff, hso]
  | false => simp [mbind, emit, mret, hcl, hdiff, hso]

/-- Full evaluation of the confirmed phases in real mode with a skipped
build, an empty diff, and a failing publish whose error carries a `stderr`
string: a `previously published` match is logged and the pushes still run;
any other `stderr` propagates the process error and stops before the push
phase. -/
theorem afterConfirm_real_pubfail (pkgName tagS : String)
    (targ : Option String) (tv : String) (env : Env) (e : ProcErr) (s : String)
    (hcl : env.procErr "pnpm" ["run", "changelog"] = none)
    (hdiff : env.procErr "git" ["diff"] = none)
    (hout : env.procOut "git" ["diff"] = "")
    (hpub : env.procErr "yarn" (publishArgsFor targ tv) = some e)
    (hse : e.stderr = some s)
    (hp1 : env.procErr "git" ["push", "origin", ("refs/tags/" ++ tagS)] = none)
    (hp2 : env.procErr "git" ["push"] = none) :
    afterConfirm pkgName tagS false true targ tv env =
      (([Effect.out "\nUpdating package version...", Effect.fileWrite tv,
        Effect.out "\nBuilding package...", Effect.out "(skipped)",
        Effect.out "\nGenerating changelog...", Effect.run "pnpm" ["run", "changelog"],
        Effect.run "git" ["diff"], Effect.out "No changes to commit.",
        Effect.out "\nPublishing package...",
        Effect.run "yarn" (publishArgsFor targ tv)] ++
        (if strIncludes s "previously published" then
          [Effect.out ("Skipping already published: " ++ pkgName),
           Effect.out "\nPushing to GitHub...",
           Effect.run "git" ["push", "origin", ("refs/tags/" ++ tagS)],
           Effect.run "git" ["push"], Effect.out ""]
         else []) : List Effect),
        if strIncludes s "previously published" then Except.ok ()
        else Except.error (JsError.thrownProc e)) := by
  unfold afterConfirm buildPhase commitPhase publishPackage runIfNotDry runReal runPiped
  cases hsp : strIncludes s "previously published" with
  | true => simp [mbind, emit, mret, errStderr, hcl, hdiff, hout, hpub, hse, hp1, hp2, hsp]
  | false => simp [mbind, emit, mret, errStderr, hcl, hdiff, hout, hpub, hse, hp1, hp2, hsp]

/-! ## Claim theorems -/

/-- C1 (the code against the claimed behaviour, at a failing input): with
package name `what-vite-do` and target version `1.2.4`, the script's `tag`
expression `pkgName === ` ``` `${pkgName}@${targetVersion}` ``` compares a string
with itself extended by `@1.2.4` and therefore evaluates to the boolean
`false`; consequently the final confirmation reads `Releasing false.
Confirm?`, the commit message is `release: false`, the git tag is `false`,
and the pushed ref is `refs/tags/false` — none of them names the release
identifier `what-vite-do@1.2.4`. -/
theorem c1_tag_is_boolean_false :
    (computePkgName "what-vite-do" ==
        computePkgName "what-vite-do" ++ "@" ++ "1.2.4") = false ∧
    mainModel "what-vite-do" "1.2.3" ⟨["1.2.4"], true, true, none⟩
        { envBase with procOut := fun _ _ => "d" } =
      ([Effect.asked "Releasing false. Confirm?",
        Effect.out "\nUpdating package version...",
        Effect.fileWrite "1.2.4",
        Effect.out "\nBuilding package...",
        Effect.out "(skipped)",
        Effect.out "\nGenerating changelog...",
        Effect.run "pnpm" ["run", "changelog"],
        Effect.run "git" ["diff"],
        Effect.out "\nCommitting changes...",
        Effect.dry "git" ["add", "-A"],
        Effect.dry "git" ["commit", "-m", "release: false"],
        Effect.dry "git" ["tag", "false"],
        Effect.out "\nPublishing package...",
        Effect.dry "yarn"
          ["publish", "--no-git-tag-version", "--new-version", "1.2.4",
            "--access", "public"],
        Effect.out "Successfully published what-vite-do@1.2.4",
        Effect.out "\nPushing to GitHub...",
        Effect.dry "git" ["push", "origin", "refs/tags/false"],
        Effect.dry "git" ["push"],
        Effect.out "\nDry run finished - run git diff to see package changes.",
        Effect.out ""], Except.ok ()) ∧
    strIncludes "release: false" "what-vite-do@1.2.4" = false :=
  ⟨tag_always_false _ _, rfl, rfl⟩

/-- C3 (counterexample): with current version `1.2.3` and the `patch`
increment, `semver.inc('1.2.3', 'patch', 'beta')` is `1.2.4`, not the
claimed `1.2.4-beta.0` — the prerelease identifier only enters the `pre`
cases — so the resolved target does not contain `beta` and the beta
dist-tag question is not reached (`betaPhase` asks nothing). -/
theorem c3_counterexample :
    incStr "1.2.3" ReleaseType.patch = "1.2.4" ∧
    incStr "1.2.3" ReleaseType.patch ≠ "1.2.4-beta.0" ∧
    strIncludes (incStr "1.2.3" ReleaseType.patch) "beta" = false ∧
    betaPhase "1.2.4" ⟨[], false, false, none⟩ envBase = ([], Except.ok none) :=
  ⟨rfl, by decide, rfl, rfl⟩

/-- C3 (amended): with current version `1.2.3`, picking `patch` resolves the
target to `1.2.4`, which does not contain `beta`, and the run goes straight
from the select prompt to the final confirmation without a beta dist-tag
question; the beta-tagged candidate `1.2.4-beta.0` arises from the
`prepatch` kind instead. -/
theorem c3_patch_amended :
    incStr "1.2.3" ReleaseType.patch = "1.2.4" ∧
    incStr "1.2.3" ReleaseType.prepatch = "1.2.4-beta.0" ∧
    mainModel "what-vite-do" "1.2.3" ⟨[], false, false, none⟩
        { envBase with confirmYes := false } =
      ([Effect.asked "Select release type",
        Effect.asked "Releasing false. Confirm?"], Except.ok ()) :=
  ⟨rfl, rfl, rfl⟩

/-- C4: `updateVersion` only changes the `version` binding of the parsed
manifest: the field sequence is unchanged, every other field keeps its
value, `version` is bound to the new string, and the file is rewritten as
the 2-space-indent `JSON.stringify` of the updated object followed by a
newline. -/
theorem c4_updateVersion_frame (m : List (String × JVal)) (v : String)
    (hver : "version" ∈ keysOf m) :
    keysOf (updateVersion m v) = keysOf m ∧
    (∀ k, k ≠ "version" → lookupKey (updateVersion m v) k = lookupKey m k) ∧
    lookupKey (updateVersion m v) "version" = some (JVal.jstr v) ∧
    updateVersionFile m v = jsonStringify2 (updateVersion m v) ++ "\n" ∧
    endsWithNl (updateVersionFile m v) = true := by
  unfold updateVersion updateVersionFile
  exact ⟨setKey_keys m "version" (JVal.jstr v) hver,
    fun k hk => setKey_lookup_ne m "version" k (JVal.jstr v) hk,
    setKey_lookup_self m "version" (JVal.jstr v),
    rfl,
    endsWithNl_append _⟩

/-- C4 witness: the frame theorem applied to a concrete manifest with extra
fields. -/
theorem c4_updateVersion_frame_witness :
    ("version" ∈ keysOf sampleManifest) ∧
    keysOf (updateVersion sampleManifest "2.0.0") = keysOf sampleManifest ∧
    lookupKey (updateVersion sampleManifest "2.0.0") "scripts" =
      lookupKey sampleManifest "scripts" ∧
    lookupKey (updateVersion sampleManifest "2.0.0") "version" =
      some (JVal.jstr "2.0.0") ∧
    endsWithNl (updateVersionFile sampleManifest "2.0.0") = true :=
  ⟨by decide,
    (c4_updateVersion_frame sampleManifest "2.0.0" (by decide)).1,
    (c4_updateVersion_frame sampleManifest "2.0.0" (by decide)).2.1 "scripts" (by decide),
    (c4_updateVersion_frame sampleManifest "2.0.0" (by decide)).2.2.1,
    (c4_updateVersion_frame sampleManifest "2.0.0" (by decide)).2.2.2.2⟩

/-- C8 (counterexample): the current version `1.2.3-gamma.1` is valid, but
`semver.inc('1.2.3-gamma.1', 'prerelease', 'beta')` replaces the prerelease
with `beta.0`, giving `1.2.3-beta.0`, which is *smaller* than the current
version — so the computed candidate is not always greater. -/
theorem c8_counterexample :
    svValid "1.2.3-gamma.1" = true ∧
    semverParse "1.2.3-gamma.1" =
      some ⟨1, 2, 3, [PreId.str "gamma", PreId.num 1]⟩ ∧
    incStr "1.2.3-gamma.1" ReleaseType.prerelease = "1.2.3-beta.0" ∧
    svGt (svInc ⟨1, 2, 3, [PreId.str "gamma", PreId.num 1]⟩ ReleaseType.prerelease)
        ⟨1, 2, 3, [PreId.str "gamma", PreId.num 1]⟩ = false :=
  ⟨rfl, rfl, by decide, by decide⟩

/-- C8 (amended): for every valid current version *without a prerelease
component* (and with its numeric parts below `MAX_SAFE_INTEGER`, so the
increment stays in range), each of the seven increment kinds yields a
structurally valid version strictly greater than the current one. -/
theorem c8_inc_amended (v : SemVer) (k : ReleaseType)
    (hpre : v.prerelease = []) (h1 : v.major < MSI) (h2 : v.minor < MSI)
    (h3 : v.patch < MSI) :
    svWfB (svInc v k) = true ∧ svGt (svInc v k) v = true := by
  obtain ⟨M, N, P, pre⟩ := v
  dsimp only at hpre h1 h2 h3
  subst hpre
  cases k with
  | patch =>
    constructor
    · simp [svInc, svWfB]
      omega
    · simp [svInc, svGt, svCompare, cmpN_self, cmpN_gt_of_lt (Nat.lt_succ_self P),
        comparePreLists]
      rfl
  | minor =>
    constructor
    · simp [svInc, svWfB]
      omega
    · simp [svInc, svGt, svCompare, cmpN_self, cmpN_gt_of_lt (Nat.lt_succ_self N)]
      rfl
  | major =>
    constructor
    · simp [svInc, svWfB]
      omega
    · simp [svInc, svGt, svCompare, cmpN_self, cmpN_gt_of_lt (Nat.lt_succ_self M)]
      rfl
  | prepatch =>
    constructor
    · simp [svInc, svWfB, incPreBeta_nil, preIdWfB_beta, preIdWfB_zero]
      omega
    · simp [svInc, svGt, svCompare, cmpN_self, cmpN_gt_of_lt (Nat.lt_succ_self P),
        incPreBeta_nil]
      rfl
  | preminor =>
    constructor
    · simp [svInc, svWfB, incPreBeta_nil, preIdWfB_beta, preIdWfB_zero]
      omega
    · simp [svInc, svGt, svCompare, cmpN_self, cmpN_gt_of_lt (Nat.lt_succ_self N),
        incPreBeta_nil]
      rfl
  | premajor =>
    constructor
    · simp [svInc, svWfB, incPreBeta_nil, preIdWfB_beta, preIdWfB_zero]
      omega
    · simp [svInc, svGt, svCompare, cmpN_self, cmpN_gt_of_lt (Nat.lt_succ_self M),
        incPreBeta_nil]
      rfl
  | prerelease =>
    constructor
    · simp [svInc, svWfB, incPreBeta_nil, preIdWfB_beta, preIdWfB_zero]
      omega
    · simp [svInc, svGt, svCompare, cmpN_self, cmpN_gt_of_lt (Nat.lt_succ_self P),
        incPreBeta_nil]
      rfl

/-- C8 witness: the amended increment theorem at `1.2.3` with the
`prerelease` kind. -/
theorem c8_inc_amended_witness :
    ((⟨1, 2, 3, []⟩ : SemVer).prerelease = [] ∧ 1 < MSI ∧ 2 < MSI ∧ 3 < MSI) ∧
    svWfB (svInc ⟨1, 2, 3, []⟩ ReleaseType.prerelease) = true ∧
    svGt (svInc ⟨1, 2, 3, []⟩ ReleaseType.prerelease) ⟨1, 2, 3, []⟩ = true :=
  ⟨⟨rfl, by decide, by decide, by decide⟩,
    (c8_inc_amended ⟨1, 2, 3, []⟩ ReleaseType.prerelease rfl (by decide) (by decide)
      (by decide)).1,
    (c8_inc_amended ⟨1, 2, 3, []⟩ ReleaseType.prerelease rfl (by decide) (by decide)
      (by decide)).2⟩

/-- C10: the publish error handler reads `e.stderr` without a guard.  For a
(real-mode) publish rejection carrying a `stderr` string it either swallows a
`previously published` failure with a skip log or rethrows the original
error; when the rejection carries no `stderr`, evaluating
`e.stderr.match(...)` itself throws a `TypeError`, and the original error is
*not* the one propagated. -/
theorem c10_stderr_guard (pkgName tv : String) (tagArg : Option String)
    (env : Env) (e : ProcErr)
    (hfail : env.procErr "yarn" (publishArgsFor tagArg tv) = some e) :
    publishPackage pkgName false tagArg env tv =
      (match e.stderr with
       | some s =>
         if strIncludes s "previously published" then
           ([Effect.run "yarn" (publishArgsFor tagArg tv),
             Effect.out ("Skipping already published: " ++ pkgName)], Except.ok ())
         else
           ([Effect.run "yarn" (publishArgsFor tagArg tv)],
             Except.error (JsError.thrownProc e))
       | none =>
         ([Effect.run "yarn" (publishArgsFor tagArg tv)],
           Except.error (JsError.typeError
             "Cannot read properties of undefined (reading match)"))) ∧
    (e.stderr = none →
      (publishPackage pkgName false tagArg env tv).2 ≠
        Except.error (JsError.thrownProc e)) := by
  have hmain : publishPackage pkgName false tagArg env tv =
      (match e.stderr with
       | some s =>
         if strIncludes s "previously published" then
           ([Effect.run "yarn" (publishArgsFor tagArg tv),
             Effect.out ("Skipping already published: " ++ pkgName)], Except.ok ())
         else
           ([Effect.run "yarn" (publishArgsFor tagArg tv)],
             Except.error (JsError.thrownProc e))
       | none =>
         ([Effect.run "yarn" (publishArgsFor tagArg tv)],
           Except.error (JsError.typeError
             "Cannot read properties of undefined (reading match)"))) := by
    unfold publishPackage runIfNotDry runReal
    simp only [Bool.false_eq_true, if_false, hfail, errStderr]
    cases he : e.stderr with
    | none => simp
    | some s =>
      by_cases hs : strIncludes s "previously published" = true
      · simp [hs]
      · simp only [Bool.not_eq_true] at hs
        simp [hs]
  refine ⟨hmain, fun hnone => ?_⟩
  rw [hmain, hnone]
  simp

/-- C10 witness: a publish rejection without a `stderr` string makes the
handler itself fail with a `TypeError` instead of rethrowing. -/
theorem c10_stderr_guard_witness :
    ({ envBase with procErr := fun b _ =>
        if b == "yarn" then some ⟨none⟩ else none } : Env).procErr "yarn"
      (publishArgsFor none "1.0.0") = some ⟨none⟩ ∧
    publishPackage "what-vite-do" false none
        { envBase with procErr := fun b _ =>
            if b == "yarn" then some ⟨none⟩ else none } "1.0.0" =
      ([Effect.run "yarn" (publishArgsFor none "1.0.0")],
        Except.error (JsError.typeError
          "Cannot read properties of undefined (reading match)")) ∧
    (publishPackage "what-vite-do" false none
        { envBase with procErr := fun b _ =>
            if b == "yarn" then some ⟨none⟩ else none } "1.0.0").2 ≠
      Except.error (JsError.thrownProc ⟨none⟩) :=
  ⟨rfl,
    (c10_stderr_guard "what-vite-do" "1.0.0" none _ ⟨none⟩ rfl).1,
    (c10_stderr_guard "what-vite-do" "1.0.0" none _ ⟨none⟩ rfl).2 rfl⟩

/-- C2 (counterexample): a concrete run in which the publish invocation
fails with stderr `boom` (not the tolerated case): `main` rejects with the
process error, the top level prints the error as its last output — and the
process still exits with status 0, because the trailing
`.catch(err => console.error(err))` handles the rejection and no
`process.exit` is ever called; the claimed non-zero exit status does not
occur. -/
theorem c2_counterexample :
    (mainModel "what-vite-do" "1.2.3" ⟨["2.0.0"], false, true, none⟩
        { envBase with procErr := fun b _ =>
            if b == "yarn" then some ⟨some "boom"⟩ else none }).2 =
      Except.error (JsError.thrownProc ⟨some "boom"⟩) ∧
    (topLevel "what-vite-do" "1.2.3" ⟨["2.0.0"], false, true, none⟩
        { envBase with procErr := fun b _ =>
            if b == "yarn" then some ⟨some "boom"⟩ else none }).2 = 0 ∧
    (topLevel "what-vite-do" "1.2.3" ⟨["2.0.0"], false, true, none⟩
        { envBase with procErr := fun b _ =>
            if b == "yarn" then some ⟨some "boom"⟩ else none }).1.getLast? =
      some (Effect.out (errText (JsError.thrownProc ⟨some "boom"⟩))) :=
  ⟨rfl, rfl, rfl⟩

/-- C2 (amended): when an external invocation (here: publish, with a
non-tolerated `stderr`) fails, the run aborts with the error and the top
level prints it — but the exit status is still 0, because the rejection is
handled by the trailing `catch` and the script never calls `process.exit`;
the exit status is 0 on normal completion, declined confirmation, and caught
failures alike. -/
theorem c2_exit_zero_amended (rawName curStr : String) (a : ScriptArgs) (env : Env)
    (tr0 : List Effect) (tv : String) (e : ProcErr) (s : String)
    (hres : resolveTarget curStr a env = (tr0, Except.ok tv))
    (hval : svValid tv = true)
    (hyes : env.confirmYes = true)
    (hdry : a.dry = false)
    (hsb : a.skipBuild = true)
    (hbeta : strIncludes tv "beta" = false)
    (hcl : env.procErr "pnpm" ["run", "changelog"] = none)
    (hdiff : env.procErr "git" ["diff"] = none)
    (hout : env.procOut "git" ["diff"] = "")
    (hpub : env.procErr "yarn" (publishArgsFor a.tag tv) = some e)
    (hse : e.stderr = some s)
    (hp1 : env.procErr "git" ["push", "origin", "refs/tags/false"] = none)
    (hp2 : env.procErr "git" ["push"] = none)
    (hnm : strIncludes s "previously published" = false) :
    (mainModel rawName curStr a env).2 = Except.error (JsError.thrownProc e) ∧
    topLevel rawName curStr a env =
      ((tr0 ++ (Effect.asked "Releasing false. Confirm?" ::
        [Effect.out "\nUpdating package version...", Effect.fileWrite tv,
          Effect.out "\nBuilding package...", Effect.out "(skipped)",
          Effect.out "\nGenerating changelog...", Effect.run "pnpm" ["run", "changelog"],
          Effect.run "git" ["diff"], Effect.out "No changes to commit.",
          Effect.out "\nPublishing package...",
          Effect.run "yarn" (publishArgsFor a.tag tv),
          Effect.out (errText (JsError.thrownProc e))]) : List Effect), 0) := by
  have hbp := betaPhase_nobeta tv a env hbeta
  have h := mainModel_confirmed rawName curStr a env tr0 [] tv a.tag hres hval hbp hyes
  have hac := afterConfirm_real_pubfail (computePkgName rawName) "false" a.tag tv env e s
    hcl hdiff hout hpub hse hp1 hp2
  have hm : mainModel rawName curStr a env =
      ((tr0 ++ (Effect.asked "Releasing false. Confirm?" ::
        [Effect.out "\nUpdating package version...", Effect.fileWrite tv,
          Effect.out "\nBuilding package...", Effect.out "(skipped)",
          Effect.out "\nGenerating changelog...", Effect.run "pnpm" ["run", "changelog"],
          Effect.run "git" ["diff"], Effect.out "No changes to commit.",
          Effect.out "\nPublishing package...",
          Effect.run "yarn" (publishArgsFor a.tag tv)]) : List Effect),
        Except.error (JsError.thrownProc e)) := by
    rw [h, hdry, hsb, hac]
    simp [hnm]
  refine ⟨by rw [hm], ?_⟩
  unfold topLevel
  rw [hm]
  simp

/-- C2 witness: the amended exit-status theorem at a concrete failing run. -/
theorem c2_exit_zero_amended_witness :
    (resolveTarget "1.2.3" ⟨["2.0.0"], false, true, none⟩
        { envBase with procErr := fun b _ =>
            if b == "yarn" then some ⟨some "boom"⟩ else none } = ([], Except.ok "2.0.0") ∧
      strIncludes "boom" "previously published" = false) ∧
    (mainModel "what-vite-do" "1.2.3" ⟨["2.0.0"], false, true, none⟩
        { envBase with procErr := fun b _ =>
            if b == "yarn" then some ⟨some "boom"⟩ else none }).2 =
      Except.error (JsError.thrownProc ⟨some "boom"⟩) ∧
    topLevel "what-vite-do" "1.2.3" ⟨["2.0.0"], false, true, none⟩
        { envBase with procErr := fun b _ =>
            if b == "yarn" then some ⟨some "boom"⟩ else none } =
      (([] ++ (Effect.asked "Releasing false. Confirm?" ::
        [Effect.out "\nUpdating package version...", Effect.fileWrite "2.0.0",
          Effect.out "\nBuilding package...", Effect.out "(skipped)",
          Effect.out "\nGenerating changelog...", Effect.run "pnpm" ["run", "changelog"],
          Effect.run "git" ["diff"], Effect.out "No changes to commit.",
          Effect.out "\nPublishing package...",
          Effect.run "yarn" (publishArgsFor none "2.0.0"),
          Effect.out (errText (JsError.thrownProc ⟨some "boom"⟩))]) : List Effect), 0) :=
  ⟨⟨rfl, rfl⟩,
    (c2_exit_zero_amended "what-vite-do" "1.2.3" ⟨["2.0.0"], false, true, none⟩
      { envBase with procErr := fun b _ =>
          if b == "yarn" then some ⟨some "boom"⟩ else none } [] "2.0.0" ⟨some "boom"⟩
      "boom" rfl rfl rfl rfl rfl rfl rfl rfl rfl rfl rfl rfl rfl rfl).1,
    (c2_exit_zero_amended "what-vite-do" "1.2.3" ⟨["2.0.0"], false, true, none⟩
      { envBase with procErr := fun b _ =>
          if b == "yarn" then some ⟨some "boom"⟩ else none } [] "2.0.0" ⟨some "boom"⟩
      "boom" rfl rfl rfl rfl rfl rfl rfl rfl rfl rfl rfl rfl rfl rfl).2⟩

/-- C5: in dry-run mode (with the changelog and diff invocations
succeeding) the whole confirmed run resolves: the manifest is written, build
is skipped with a `(skipped)` notice, `pnpm run changelog` and `git diff`
still run for real, and every mutating command — `git add`, `git commit`,
`git tag`, the `yarn publish` invocation, and the two `git push`es — appears
only as a `[dryrun]` log carrying the command name and its full argument
list. -/
theorem c5_dry_run_trace (rawName curStr : String) (a : ScriptArgs) (env : Env)
    (tr0 : List Effect) (tv : String)
    (hres : resolveTarget curStr a env = (tr0, Except.ok tv))
    (hval : svValid tv = true)
    (hdry : a.dry = true)
    (hyes : env.confirmYes = true)
    (hbeta : strIncludes tv "beta" = false)
    (hcl : env.procErr "pnpm" ["run", "changelog"] = none)
    (hdiff : env.procErr "git" ["diff"] = none) :
    mainModel rawName curStr a env =
      ((tr0 ++ (Effect.asked "Releasing false. Confirm?" ::
        ([Effect.out "\nUpdating package version...", Effect.fileWrite tv,
          Effect.out "\nBuilding package...", Effect.out "(skipped)",
          Effect.out "\nGenerating changelog...", Effect.run "pnpm" ["run", "changelog"],
          Effect.run "git" ["diff"]] ++
          ((if env.procOut "git" ["diff"] == "" then [Effect.out "No changes to commit."]
            else [Effect.out "\nCommitting changes...", Effect.dry "git" ["add", "-A"],
              Effect.dry "git" ["commit", "-m", "release: false"],
              Effect.dry "git" ["tag", "false"]]) ++
          [Effect.out "\nPublishing package...",
           Effect.dry "yarn" (publishArgsFor a.tag tv),
           Effect.out ("Successfully published " ++ computePkgName rawName ++ "@" ++ tv),
           Effect.out "\nPushing to GitHub...",
           Effect.dry "git" ["push", "origin", "refs/tags/false"],
           Effect.dry "git" ["push"],
           Effect.out "\nDry run finished - run git diff to see package changes.",
           Effect.out ""]))) : List Effect), Except.ok ()) := by
  have hbp := betaPhase_nobeta tv a env hbeta
  have h := mainModel_confirmed rawName curStr a env tr0 [] tv a.tag hres hval hbp hyes
  rw [h, hdry,
    afterConfirm_dry (computePkgName rawName) "false" a.skipBuild a.tag tv env hcl hdiff]
  simp [List.append_assoc]

/-- C5 witness: the dry-run trace theorem at a concrete run with a
non-empty diff. -/
theorem c5_dry_run_trace_witness :
    (resolveTarget "1.2.3" ⟨["3.4.5"], true, false, none⟩
        { envBase with procOut := fun _ _ => "d" } = ([], Except.ok "3.4.5") ∧
      svValid "3.4.5" = true ∧
      strIncludes "3.4.5" "beta" = false) ∧
    mainModel "what-vite-do" "1.2.3" ⟨["3.4.5"], true, false, none⟩
        { envBase with procOut := fun _ _ => "d" } =
      (([] ++ (Effect.asked "Releasing false. Confirm?" ::
        ([Effect.out "\nUpdating package version...", Effect.fileWrite "3.4.5",
          Effect.out "\nBuilding package...", Effect.out "(skipped)",
          Effect.out "\nGenerating changelog...", Effect.run "pnpm" ["run", "changelog"],
          Effect.run "git" ["diff"]] ++
          ((if ({ envBase with procOut := fun _ _ => "d" } : Env).procOut "git" ["diff"] == ""
            then [Effect.out "No changes to commit."]
            else [Effect.out "\nCommitting changes...", Effect.dry "git" ["add", "-A"],
              Effect.dry "git" ["commit", "-m", "release: false"],
              Effect.dry "git" ["tag", "false"]]) ++
          [Effect.out "\nPublishing package...",
           Effect.dry "yarn" (publishArgsFor none "3.4.5"),
           Effect.out ("Successfully published " ++ computePkgName "what-vite-do" ++ "@" ++ "3.4.5"),
           Effect.out "\nPushing to GitHub...",
           Effect.dry "git" ["push", "origin", "refs/tags/false"],
           Effect.dry "git" ["push"],
           Effect.out "\nDry run finished - run git diff to see package changes.",
           Effect.out ""]))) : List Effect), Except.ok ()) :=
  ⟨⟨rfl, rfl, rfl⟩,
    c5_dry_run_trace "what-vite-do" "1.2.3" ⟨["3.4.5"], true, false, none⟩
      { envBase with procOut := fun _ _ => "d" } [] "3.4.5" rfl rfl rfl rfl rfl rfl rfl⟩

/-- C6: if the operator declines the final confirmation, the run aborts
silently: the whole trace consists of prompts only (no file write, no real
or dry-logged external command, no other output), `main` resolves without an
error, and the process exits with status 0. -/
theorem c6_decline_silent (rawName curStr : String) (a : ScriptArgs) (env : Env)
    (tr0 : List Effect) (tv : String)
    (hres : resolveTarget curStr a env = (tr0, Except.ok tv))
    (hval : svValid tv = true)
    (hno : env.confirmYes = false) :
    (mainModel rawName curStr a env).1.all isAskedEff = true ∧
    (mainModel rawName curStr a env).2 = Except.ok () ∧
    (topLevel rawName curStr a env).2 = 0 := by
  obtain ⟨targ, hbp⟩ := betaPhase_ok tv a env
  have h := mainModel_declined rawName curStr a env tr0 (betaPhase tv a env).1 tv targ
    hres hval hbp hno
  have htr0 : tr0.all isAskedEff = true := by
    have h2 := resolveTarget_askedOnly curStr a env
    rw [hres] at h2
    exact h2
  refine ⟨?_, ?_, ?_⟩
  · rw [h]
    simp [List.all_append, htr0, betaPhase_askedOnly, isAskedEff]
  · rw [h]
  · unfold topLevel
    rw [h]

/-- C6 witness: the declined-confirmation theorem at a concrete run. -/
theorem c6_decline_silent_witness :
    (resolveTarget "1.2.3" ⟨["2.0.0"], false, false, none⟩
        { envBase with confirmYes := false } = ([], Except.ok "2.0.0") ∧
      svValid "2.0.0" = true ∧
      ({ envBase with confirmYes := false } : Env).confirmYes = false) ∧
    (mainModel "what-vite-do" "1.2.3" ⟨["2.0.0"], false, false, none⟩
        { envBase with confirmYes := false }).1.all isAskedEff = true ∧
    (mainModel "what-vite-do" "1.2.3" ⟨["2.0.0"], false, false, none⟩
        { envBase with confirmYes := false }).2 = Except.ok () ∧
    (topLevel "what-vite-do" "1.2.3" ⟨["2.0.0"], false, false, none⟩
        { envBase with confirmYes := false }).2 = 0 :=
  ⟨⟨rfl, rfl, rfl⟩,
    c6_decline_silent "what-vite-do" "1.2.3" ⟨["2.0.0"], false, false, none⟩
      { envBase with confirmYes := false } [] "2.0.0" rfl rfl rfl⟩

/-- C7: when the publish invocation fails with an error whose output
contains `previously published`, the run logs a skip message and continues
into the push phase and to a normal finish; with any other error output the
process error propagates and the push phase is never reached (the trace ends
at the publish invocation). -/
theorem c7_publish_tolerated (rawName curStr : String) (a : ScriptArgs) (env : Env)
    (tr0 : List Effect) (tv : String) (e : ProcErr) (s : String)
    (hres : resolveTarget curStr a env = (tr0, Except.ok tv))
    (hval : svValid tv = true)
    (hyes : env.confirmYes = true)
    (hdry : a.dry = false)
    (hsb : a.skipBuild = true)
    (hbeta : strIncludes tv "beta" = false)
    (hcl : env.procErr "pnpm" ["run", "changelog"] = none)
    (hdiff : env.procErr "git" ["diff"] = none)
    (hout : env.procOut "git" ["diff"] = "")
    (hpub : env.procErr "yarn" (publishArgsFor a.tag tv) = some e)
    (hse : e.stderr = some s)
    (hp1 : env.procErr "git" ["push", "origin", "refs/tags/false"] = none)
    (hp2 : env.procErr "git" ["push"] = none) :
    mainModel rawName curStr a env =
      ((tr0 ++ (Effect.asked "Releasing false. Confirm?" ::
        ([Effect.out "\nUpdating package version...", Effect.fileWrite tv,
          Effect.out "\nBuilding package...", Effect.out "(skipped)",
          Effect.out "\nGenerating changelog...", Effect.run "pnpm" ["run", "changelog"],
          Effect.run "git" ["diff"], Effect.out "No changes to commit.",
          Effect.out "\nPublishing package...",
          Effect.run "yarn" (publishArgsFor a.tag tv)] ++
          (if strIncludes s "previously published" then
            [Effect.out ("Skipping already published: " ++ computePkgName rawName),
             Effect.out "\nPushing to GitHub...",
             Effect.run "git" ["push", "origin", "refs/tags/false"],
             Effect.run "git" ["push"], Effect.out ""]
           else []))) : List Effect),
        if strIncludes s "previously published" then Except.ok ()
        else Except.error (JsError.thrownProc e)) := by
  have hbp := betaPhase_nobeta tv a env hbeta
  have h := mainModel_confirmed rawName curStr a env tr0 [] tv a.tag hres hval hbp hyes
  rw [h, hdry, hsb,
    afterConfirm_real_pubfail (computePkgName rawName) "false" a.tag tv env e s
      hcl hdiff hout hpub hse hp1 hp2]
  simp [List.append_assoc]

/-- C7 witness: the tolerated-publish theorem at a run whose publish fails
with stderr `version 2.0.0 previously published`. -/
theorem c7_publish_tolerated_witness :
    (resolveTarget "1.2.3" ⟨["2.0.0"], false, true, none⟩
        { envBase with procErr := fun b _ =>
            if b == "yarn" then some ⟨some "version 2.0.0 previously published"⟩
            else none } = ([], Except.ok "2.0.0") ∧
      svValid "2.0.0" = true ∧
      strIncludes "version 2.0.0 previously published" "previously published" = true) ∧
    mainModel "what-vite-do" "1.2.3" ⟨["2.0.0"], false, true, none⟩
        { envBase with procErr := fun b _ =>
            if b == "yarn" then some ⟨some "version 2.0.0 previously published"⟩
            else none } =
      (([] ++ (Effect.asked "Releasing false. Confirm?" ::
        ([Effect.out "\nUpdating package version...", Effect.fileWrite "2.0.0",
          Effect.out "\nBuilding package...", Effect.out "(skipped)",
          Effect.out "\nGenerating changelog...", Effect.run "pnpm" ["run", "changelog"],
          Effect.run "git" ["diff"], Effect.out "No changes to commit.",
          Effect.out "\nPublishing package...",
          Effect.run "yarn" (publishArgsFor none "2.0.0")] ++
          (if strIncludes "version 2.0.0 previously published" "previously published" then
            [Effect.out ("Skipping already published: " ++ computePkgName "what-vite-do"),
             Effect.out "\nPushing to GitHub...",
             Effect.run "git" ["push", "origin", "refs/tags/false"],
             Effect.run "git" ["push"], Effect.out ""]
           else []))) : List Effect),
        if strIncludes "version 2.0.0 previously published" "previously published" then
          Except.ok ()
        else Except.error (JsError.thrownProc ⟨some "version 2.0.0 previously published"⟩)) :=
  ⟨⟨rfl, rfl, rfl⟩,
    c7_publish_tolerated "what-vite-do" "1.2.3" ⟨["2.0.0"], false, true, none⟩
      { envBase with procErr := fun b _ =>
          if b == "yarn" then some ⟨some "version 2.0.0 previously published"⟩
          else none } [] "2.0.0" ⟨some "version 2.0.0 previously published"⟩
      "version 2.0.0 previously published" rfl rfl rfl rfl rfl rfl rfl rfl rfl rfl rfl rfl rfl⟩

/-- C9: even in dry-run mode, once the operator confirms, the manifest write
happens — `updateVersion` is not gated by the dry-run flag, so the trace of
a confirmed dry run contains the file write of the target version. -/
theorem c9_dry_still_writes (rawName curStr : String) (a : ScriptArgs) (env : Env)
    (tr0 : List Effect) (tv : String)
    (hres : resolveTarget curStr a env = (tr0, Except.ok tv))
    (hval : svValid tv = true)
    (hdry : a.dry = true)
    (hyes : env.confirmYes = true) :
    Effect.fileWrite tv ∈ (mainModel rawName curStr a env).1 := by
  obtain ⟨targ, hbp⟩ := betaPhase_ok tv a env
  have h := mainModel_confirmed rawName curStr a env tr0 (betaPhase tv a env).1 tv targ
    hres hval hbp hyes
  rw [h, hdry]
  obtain ⟨rest, hr⟩ := afterConfirm_starts (computePkgName rawName) "false" true
    a.skipBuild targ tv env
  simp [hr]

/-- C9 witness: a confirmed dry run still writes the manifest. -/
theorem c9_dry_still_writes_witness :
    (resolveTarget "1.2.3" ⟨["2.0.0"], true, false, none⟩ envBase =
        ([], Except.ok "2.0.0") ∧
      svValid "2.0.0" = true ∧
      (⟨["2.0.0"], true, false, none⟩ : ScriptArgs).dry = true ∧
      envBase.confirmYes = true) ∧
    Effect.fileWrite "2.0.0" ∈
      (mainModel "what-vite-do" "1.2.3" ⟨["2.0.0"], true, false, none⟩ envBase).1 :=
  ⟨⟨rfl, rfl, rfl, rfl⟩,
    c9_dry_still_writes "what-vite-do" "1.2.3" ⟨["2.0.0"], true, false, none⟩ envBase
      [] "2.0.0" rfl rfl rfl rfl⟩

end Release
